import Mathlib

/- Verification development for the NeoZygisk `zygiskd` daemon.

   Shallow embedding of the Rust sources under `src/zygiskd/src`
   (`main.rs`, `utils.rs`, `mount.rs`, `constants.rs`) into Lean, together
   with theorems settling the specification claims.  External effects
   (syscalls, file system, SELinux writes) are modelled by explicit
   environment records carrying the outcome of each effectful step, and by
   explicit state threading; machine integers are modelled by `Nat`/`Int`
   with explicit truncation where overflow matters. -/

namespace NeoZygisk

/-! ## CLI dispatch (`src/main.rs`)

`start` parses the command-line arguments and dispatches to one of the
modes.  The daemon branch calls `main_daemon_entry`; its result (which in
the source is `anyhow::Result<()>`) is passed in as a parameter.  The Rust
`main` never calls `std::process::exit`, so the process exit status is the
default `0` whenever `main` returns. -/

/-- Model of Rust `str::parse::<i32>`: optional sign, one or more ASCII
digits, value must fit in `i32`. -/
def parse_i32 (s : String) : Option Int :=
  let signAndDigits : Bool × List Char :=
    match s.data with
    | '+' :: rest => (true, rest)
    | '-' :: rest => (false, rest)
    | l => (true, l)
  let pos := signAndDigits.1
  let ds := signAndDigits.2
  if ds.isEmpty then none
  else if ds.all (fun c => c.isDigit) then
    let n : Nat := ds.foldl (fun acc c => acc * 10 + (c.toNat - 48)) 0
    let v : Int := if pos then (n : Int) else -(n : Int)
    if -2147483648 ≤ v ∧ v ≤ 2147483647 then some v else none
  else none

/-- Observable actions performed by `start` (`src/main.rs`). -/
inductive Action where
  | logError (msg : String)
  | printLine (msg : String)
  | companionEntry (fd : Int)
  | rootImplProbe
  | daemonRun
deriving DecidableEq

/-- Version string baked in at compile time (`constants::ZKSU_VERSION`). -/
def ZKSU_VERSION : String := "v1"

/-- Embedding of `start` (`src/main.rs` lines 94-122).  The Rust `match` on
`args.get(1).map(String::as_str)` is rendered as a first-match cascade; the
wildcard arm (anything but `companion` / `version` / `root`, including no
argument at all) runs the daemon, logging an error if `main_daemon_entry`
returned one.  `daemonResult` stands for the outcome of
`main_daemon_entry`. -/
def start (args : List String) (daemonResult : Except String Unit) : List Action :=
  if args.get? 1 = some "companion" then
    match args.get? 2 with
    | some fdStr =>
      match parse_i32 fdStr with
      | some fd => [Action.companionEntry fd]
      | none => [Action.logError "Companion: Invalid file descriptor provided."]
    | none => [Action.logError "Companion: Missing file descriptor argument."]
  else if args.get? 1 = some "version" then
    [Action.printLine ("NeoZygisk daemon " ++ ZKSU_VERSION)]
  else if args.get? 1 = some "root" then
    [Action.rootImplProbe, Action.printLine "Detected root implementation"]
  else
    Action.daemonRun ::
      (match daemonResult with
       | Except.ok _ => []
       | Except.error e => [Action.logError ("Zygiskd daemon failed: " ++ e)])

/-- Exit status of the process (`src/main.rs` `main`, lines 135-142): `start`
returns `()` on every path and `main` falls off its end without ever calling
`std::process::exit`, so the status is the runtime default `0`. -/
def mainExitCode (args : List String) (daemonResult : Except String Unit) : Nat :=
  let _ := start args daemonResult
  0

/-- Whether the wildcard (daemon) arm of the `match` in `start` is taken. -/
def daemonModeArgs (args : List String) : Bool :=
  !(args.get? 1 = some "companion" || args.get? 1 = some "version"
    || args.get? 1 = some "root")

/-! ## SELinux socket-creation context and the controller datagram
(`src/utils.rs` lines 61-74 and 174-182)

The thread's socket-creation SELinux context is the state.
`set_socket_create_context` writes the context file (with a fallback path);
its combined success is an oracle bit per written context.  `get_current_attr`
reads `/proc/self/attr/current`. -/

/-- SELinux state of the calling thread: the current value of
`/proc/thread-self/attr/sockcreate`. -/
structure SELinuxState where
  sockcreate : String
deriving DecidableEq

/-- Environment for one `unix_datagram_sendto` call: outcomes of each
effectful step, in program order. -/
structure SendtoEnv where
  currentAttr : Except String String
  setCtxOk : String → Bool
  addrOk : Bool
  socketOk : Bool
  connectOk : Bool
  sendtoOk : Bool

/-- Embedding of `set_socket_create_context`: on success the thread's
sockcreate context becomes `ctx`, otherwise the state is unchanged. -/
def set_socket_create_context (env : SendtoEnv) (st : SELinuxState) (ctx : String) :
    Except String Unit × SELinuxState :=
  if env.setCtxOk ctx then (Except.ok (), { sockcreate := ctx })
  else (Except.error "sockcreate write failed", st)

/-- Embedding of `unix_datagram_sendto` (`src/utils.rs` lines 174-182).
Returns the call result, the final SELinux state, and the trace of contexts
passed to `set_socket_create_context` (in order).  Each `?` in the source is
an early return. -/
def unix_datagram_sendto (env : SendtoEnv) (st : SELinuxState) :
    Except String Unit × SELinuxState × List String :=
  match env.currentAttr with
  | Except.error e => (Except.error e, st, [])
  | Except.ok attr =>
    match set_socket_create_context env st attr with
    | (Except.error e, st1) => (Except.error e, st1, [attr])
    | (Except.ok _, st1) =>
      if !env.addrOk then (Except.error "SocketAddrUnix::new", st1, [attr])
      else if !env.socketOk then (Except.error "socket", st1, [attr])
      else if !env.connectOk then (Except.error "connect", st1, [attr])
      else if !env.sendtoOk then (Except.error "sendto", st1, [attr])
      else
        match set_socket_create_context env st1 "u:r:zygote:s0" with
        | (Except.error e, st2) => (Except.error e, st2, [attr, "u:r:zygote:s0"])
        | (Except.ok _, st2) => (Except.ok (), st2, [attr, "u:r:zygote:s0"])

/-! ## Mount-namespace manager (`src/mount.rs`) -/

/-- The two managed namespace kinds (`mount.rs` lines 24-29). -/
inductive MountNamespace where
  | Clean
  | Root
deriving DecidableEq

/-- Thread filesystem state for `switch_mount_namespace`: the current
working directory. -/
structure ThreadFsState where
  cwd : String
deriving DecidableEq

/-- Environment for one `switch_mount_namespace` call. `cwdAfterSetns` is
whatever the working directory becomes after `setns` (the syscall clears
it). -/
structure SwitchEnv where
  currentDirOk : Bool
  openNsOk : Bool
  setnsOk : Bool
  cwdAfterSetns : String
  setCwdOk : Bool

/-- Embedding of `switch_mount_namespace` (`mount.rs` lines 43-53): save the
cwd, open `/proc/<pid>/ns/mnt`, `setns` (which clobbers the cwd), restore
the saved cwd. -/
def switch_mount_namespace (env : SwitchEnv) (st : ThreadFsState) (pid : Int) :
    Except String Unit × ThreadFsState :=
  let _ := pid
  if !env.currentDirOk then (Except.error "current_dir", st)
  else
    let saved := st.cwd
    if !env.openNsOk then (Except.error "open ns file", st)
    else if !env.setnsOk then (Except.error "setns", st)
    else
      let st1 : ThreadFsState := { cwd := env.cwdAfterSetns }
      if env.setCwdOk then (Except.ok (), { cwd := saved })
      else (Except.error "set_current_dir", st1)

/-- Cache of the two write-once namespace slots
(`MountNamespaceManager`, `mount.rs` lines 59-78).  Fds are raw fd
numbers. -/
structure NsCache where
  cleanFd : Option Nat
  rootFd : Option Nat
deriving DecidableEq

/-- Embedding of `get_namespace_storage` + `OnceLock.get`. -/
def getNamespaceSlot (c : NsCache) : MountNamespace → Option Nat
  | MountNamespace.Clean => c.cleanFd
  | MountNamespace.Root => c.rootFd

/-- Writing a slot (`OnceLock.set` on the matching field). -/
def setNamespaceSlot (c : NsCache) (k : MountNamespace) (fd : Nat) : NsCache :=
  match k with
  | MountNamespace.Clean => { c with cleanFd := some fd }
  | MountNamespace.Root => { c with rootFd := some fd }

/-- Events of the parent branch of `save_mount_namespace`, in program
order. -/
inductive NsEvent where
  | createPipe
  | forkCall
  | readPipe
  | openNsFile
  | killChild
  | reapChild
  | storeFd (fd : Nat)
deriving DecidableEq

/-- Environment for one `save_mount_namespace` call.  `forkResult = none`
models `fork` returning a negative value; `some childPid` is the parent's
view.  `openResult` is the fd obtained from opening
`/proc/<child_pid>/ns/mnt` (or `none` on failure). -/
structure SaveEnv where
  pipeOk : Bool
  forkResult : Option Nat
  readOk : Bool
  openResult : Option Nat

/-- Embedding of `save_mount_namespace` (`mount.rs` lines 92-153), daemon
(parent) side.  Returns the result, the updated cache, and the event
trace.  The cached-slot check comes first; on the fresh path the parent
reads the readiness byte, opens the namespace file, kills and reaps the
child, and only then stores the fd in the slot. -/
def save_mount_namespace (env : SaveEnv) (st : NsCache) (pid : Int)
    (k : MountNamespace) : Except String Nat × NsCache × List NsEvent :=
  let _ := pid
  match getNamespaceSlot st k with
  | some fd => (Except.ok fd, st, [])
  | none =>
    if !env.pipeOk then (Except.error "pipe", st, [NsEvent.createPipe])
    else
      match env.forkResult with
      | none => (Except.error "fork", st, [NsEvent.createPipe, NsEvent.forkCall])
      | some _childPid =>
        if !env.readOk then
          (Except.error "read", st,
           [NsEvent.createPipe, NsEvent.forkCall, NsEvent.readPipe])
        else
          match env.openResult with
          | none =>
            (Except.error "open ns file", st,
             [NsEvent.createPipe, NsEvent.forkCall, NsEvent.readPipe,
              NsEvent.openNsFile])
          | some fd =>
            (Except.ok fd, setNamespaceSlot st k fd,
             [NsEvent.createPipe, NsEvent.forkCall, NsEvent.readPipe,
              NsEvent.openNsFile, NsEvent.killChild, NsEvent.reapChild,
              NsEvent.storeFd fd])

/-! ## Mount cleaning (`mount.rs` lines 156-207)

`clean_mount_namespace` runs inside the capturing child after `unshare`.
The mount table read from `/proc/self/mountinfo` is a parameter; `procfs`
failures are a boolean.  `umount2` outcomes are an oracle keyed by path. -/

/-- Active root implementation (`root_impl::RootImpl`), as matched by
`mount.rs` lines 160-165.  Versions carried by the real enum are irrelevant
to the mount-cleaning code, which matches tags only. -/
inductive RootImpl where
  | apatch
  | kernelsu
  | magisk
  | noneRoot
  | multiple
deriving DecidableEq

/-- One row of `/proc/self/mountinfo` (`procfs::process::MountInfo`),
restricted to the fields `clean_mount_namespace` reads.  `mount_point` is
modelled as `String` (the source's `to_str().unwrap_or("")` only diverges
on non-UTF-8 paths, which `String` cannot represent). -/
structure MountInfo where
  mnt_id : Int
  root : String
  mount_point : String
  mount_source : Option String
deriving DecidableEq

/-- Embedding of the `root_source` match (`mount.rs` lines 160-165). -/
def root_source : RootImpl → Option String
  | RootImpl.apatch => some "APatch"
  | RootImpl.kernelsu => some "KSU"
  | RootImpl.magisk => some "magisk"
  | _ => none

/-- Embedding of the `ksu_module_source` capture (`mount.rs` lines
167-176): under KernelSU, the source of the mount whose mount point is
exactly `/data/adb/modules`, kept only if it is a loop device. -/
def ksu_module_source (impl : RootImpl) (mounts : List MountInfo) : Option String :=
  if impl = RootImpl.kernelsu then
    (((mounts.find? (fun info => info.mount_point == "/data/adb/modules")).bind
        (fun info => info.mount_source)).filter
      (fun source => source.startsWith "/dev/block/loop"))
  else none

/-- Embedding of the `should_unmount` condition (`mount.rs` lines
182-185). -/
def should_unmount (rootSource ksuSource : Option String) (info : MountInfo) : Bool :=
  info.root.startsWith "/adb/modules"
    || info.mount_point.startsWith "/data/adb/modules"
    || (rootSource.isSome && info.mount_source == rootSource)
    || (ksuSource.isSome && info.mount_source == ksuSource)

/-- The unmount targets collected by the loop at `mount.rs` lines
178-190. -/
def unmount_targets (impl : RootImpl) (mounts : List MountInfo) : List MountInfo :=
  mounts.filter
    (should_unmount (root_source impl) (ksu_module_source impl mounts))

/-- The targets after `sort_by_key(Reverse(mnt_id))` (`mount.rs` line 193):
stable sort, descending `mnt_id`. -/
def sorted_targets (impl : RootImpl) (mounts : List MountInfo) : List MountInfo :=
  (unmount_targets impl mounts).mergeSort
    (fun a b => decide (b.mnt_id ≤ a.mnt_id))

/-- One attempted `umount2(path, MNT_DETACH)` call and its outcome. -/
structure UmountEvent where
  path : String
  mnt_id : Int
  success : Bool
deriving DecidableEq

/-- Embedding of `clean_mount_namespace` (`mount.rs` lines 156-207).
`mountinfoOk` models the `?` on `Process::myself()?.mountinfo()?`.  The
unmount loop attempts every sorted target whose path survives
`CString::new` (no interior NUL); a failed `umount2` is logged and the loop
continues; the function then returns `Ok(())`. -/
def clean_mount_namespace (mountinfoOk : Bool) (impl : RootImpl)
    (mounts : List MountInfo) (umountOk : String → Bool) :
    Except String Unit × List UmountEvent :=
  if !mountinfoOk then (Except.error "mountinfo", [])
  else
    (Except.ok (),
     (sorted_targets impl mounts).filterMap (fun target =>
       if target.mount_point.data.contains (Char.ofNat 0) then none
       else
         some { path := target.mount_point, mnt_id := target.mnt_id,
                success := umountOk target.mount_point }))

/-- Modelled from the spec (section 4.C): the root-implementation marker —
`"APatch"`, `"KSU"`, or `"magisk"` depending on the active RootImpl —
written independently of the code's `root_source` match for the
refinement comparison in the unmount-target claim. -/
def spec_root_marker : RootImpl → Option String
  | RootImpl.apatch => some "APatch"
  | RootImpl.kernelsu => some "KSU"
  | RootImpl.magisk => some "magisk"
  | RootImpl.noneRoot => none
  | RootImpl.multiple => none

/-! ## Socket liveness poll (`src/utils.rs` lines 185-199) -/

/-- Linux `poll` event bits (from `libc`). -/
def POLLIN : Nat := 1
def POLLERR : Nat := 8
def POLLHUP : Nat := 16
def POLLNVAL : Nat := 32

/-- Embedding of `is_socket_alive` (`utils.rs` lines 185-199): the poll
return value and the returned `revents` mask (a C `short`, here a `Nat`
below `2 ^ 16`) are parameters.  Dead if `poll` itself failed, or if
`revents` has any bit other than `POLLIN` set (`revents & !POLLIN != 0`). -/
def is_socket_alive (pollRet : Int) (revents : Nat) : Bool :=
  if pollRet < 0 then false
  else revents &&& (65535 ^^^ POLLIN) == 0

/-! ## Framed stream I/O (`src/utils.rs` lines 103-160, `UnixStreamExt`)

The byte stream is a `List Nat` of byte values.  The daemon is an LP64
little-endian target (aarch64 / x86_64), so the native-width native-endian
integer written by `write_usize` / read by `read_usize` is 8 bytes,
least-significant first.  UTF-8 encoding and validation model Rust's
`str::as_bytes` / `String::from_utf8`: the decoder accepts exactly the
valid strict UTF-8 byte sequences (no overlong forms, no surrogates, max
`U+10FFFF`). -/

/-- UTF-8 continuation byte test: `0x80 ≤ b < 0xC0`. -/
def isCont (b : Nat) : Bool := 128 ≤ b && b < 192

/-- Code point of a two-byte sequence. -/
def seqVal2 (b b1 : Nat) : Nat := (b - 192) * 64 + (b1 - 128)

/-- Validity of a two-byte sequence (continuation byte, no overlong form). -/
def seqOk2 (b b1 : Nat) : Bool := isCont b1 && 128 ≤ seqVal2 b b1

/-- Code point of a three-byte sequence. -/
def seqVal3 (b b1 b2 : Nat) : Nat := (b - 224) * 4096 + (b1 - 128) * 64 + (b2 - 128)

/-- Validity of a three-byte sequence (continuations, no overlong form, no
surrogate). -/
def seqOk3 (b b1 b2 : Nat) : Bool :=
  isCont b1 && isCont b2 && 2048 ≤ seqVal3 b b1 b2
    && !(55296 ≤ seqVal3 b b1 b2 && seqVal3 b b1 b2 < 57344)

/-- Code point of a four-byte sequence. -/
def seqVal4 (b b1 b2 b3 : Nat) : Nat :=
  (b - 240) * 262144 + (b1 - 128) * 4096 + (b2 - 128) * 64 + (b3 - 128)

/-- Validity of a four-byte sequence (continuations, no overlong form,
at most `U+10FFFF`). -/
def seqOk4 (b b1 b2 b3 : Nat) : Bool :=
  isCont b1 && isCont b2 && isCont b3 && 65536 ≤ seqVal4 b b1 b2 b3
    && seqVal4 b b1 b2 b3 < 1114112

/-- Decode one UTF-8 scalar value from a lead byte and the following
bytes; returns the code point and the unconsumed remainder. -/
def decodeStep (b : Nat) (rest : List Nat) : Option (Nat × List Nat) :=
  if b < 128 then some (b, rest)
  else if b < 192 then none
  else if b < 224 then
    match rest with
    | b1 :: rest1 => if seqOk2 b b1 then some (seqVal2 b b1, rest1) else none
    | [] => none
  else if b < 240 then
    match rest with
    | b1 :: b2 :: rest2 => if seqOk3 b b1 b2 then some (seqVal3 b b1 b2, rest2) else none
    | _ => none
  else if b < 248 then
    match rest with
    | b1 :: b2 :: b3 :: rest3 =>
      if seqOk4 b b1 b2 b3 then some (seqVal4 b b1 b2 b3, rest3) else none
    | _ => none
  else none

/-- Strict UTF-8 decoding of a whole byte list (the validation performed
by Rust `String::from_utf8`). -/
def utf8Decode (l : List Nat) : Option (List Char) :=
  match l with
  | [] => some []
  | b :: rest =>
    match hstep : decodeStep b rest with
    | none => none
    | some (v, rest') => (utf8Decode rest').map (fun cs => Char.ofNat v :: cs)
termination_by l.length
decreasing_by
  simp only [List.length_cons]
  unfold decodeStep at hstep
  repeat' split at hstep
  all_goals simp_all
  all_goals omega

/-- UTF-8 encoding of one scalar value (Rust `char` encoding). -/
def utf8EncodeChar (v : Nat) : List Nat :=
  if v < 128 then [v]
  else if v < 2048 then [192 + v / 64, 128 + v % 64]
  else if v < 65536 then [224 + v / 4096, 128 + v / 64 % 64, 128 + v % 64]
  else [240 + v / 262144, 128 + v / 4096 % 64, 128 + v / 64 % 64, 128 + v % 64]

/-- UTF-8 encoding of a character list (Rust `str::as_bytes`). -/
def utf8EncodeList : List Char → List Nat
  | [] => []
  | c :: cs => utf8EncodeChar c.toNat ++ utf8EncodeList cs

/-- The 8 little-endian bytes of `n` (`usize::to_ne_bytes` on LP64
little-endian, truncating above `2 ^ 64`). -/
def usizeToBytes (n : Nat) : List Nat :=
  [n % 256, n / 256 % 256, n / 65536 % 256, n / 16777216 % 256,
   n / 4294967296 % 256, n / 1099511627776 % 256,
   n / 281474976710656 % 256, n / 72057594037927936 % 256]

/-- Little-endian reassembly (`usize::from_ne_bytes`). -/
def bytesToUsize (bs : List Nat) : Nat :=
  bs.foldr (fun b acc => b + 256 * acc) 0

/-- Embedding of `read_usize` (`utils.rs` lines 127-131): `read_exact` of 8
bytes, failing on a short read, then `from_ne_bytes`. -/
def read_usize (bs : List Nat) : Option (Nat × List Nat) :=
  if bs.length < 8 then none
  else some (bytesToUsize (bs.take 8), bs.drop 8)

/-- Embedding of `write_string` (`utils.rs` lines 155-159): the byte length
of the UTF-8 encoding as a native-width integer, then the bytes, no
terminator. -/
def write_string (s : String) : List Nat :=
  usizeToBytes (utf8EncodeList s.data).length ++ utf8EncodeList s.data

/-- Embedding of `read_string` (`utils.rs` lines 133-138): read the
native-width length, `read_exact` that many bytes (failing on a short
read), then `String::from_utf8` (failing on invalid UTF-8). -/
def read_string (bs : List Nat) : Option (String × List Nat) :=
  match read_usize bs with
  | none => none
  | some (len, rest) =>
    if rest.length < len then none
    else
      match utf8Decode (rest.take len) with
      | none => none
      | some cs => some (String.mk cs, rest.drop len)

/-! ## Theorems -/

/-- C1 counterexample: with no mode argument the daemon runs, and when its
entry path returns an error (for instance failure to bind a listener) the
process exit status is still `0` — `start` only logs the error and `main`
returns normally, so the claimed nonzero exit status is refuted. -/
theorem exit_status_zero_on_daemon_error :
    mainExitCode ["zygiskd"] (Except.error "unable to bind listener") = 0 := rfl

/-- C1 (amended): in daemon mode the process exits with status `0`
regardless of whether the daemon entry path succeeded or failed; a failure
is only logged (`start` has no path that sets a nonzero exit status). -/
theorem daemon_failure_exit_code (args : List String) (res : Except String Unit)
    (e : String) (hmode : daemonModeArgs args = true) :
    mainExitCode args res = 0 ∧
    Action.logError ("Zygiskd daemon failed: " ++ e)
      ∈ start args (Except.error e) := by
  refine ⟨rfl, ?_⟩
  simp only [daemonModeArgs, Bool.not_eq_true', Bool.or_eq_false_iff,
    decide_eq_false_iff_not] at hmode
  obtain ⟨⟨h1, h2⟩, h3⟩ := hmode
  simp only [List.get?_eq_getElem?] at h1 h2 h3
  simp [start, h1, h2, h3]

/-- C1 witness. -/
theorem daemon_failure_exit_code_witness :
    mainExitCode ["zygiskd"] (Except.ok ()) = 0 ∧
    Action.logError ("Zygiskd daemon failed: " ++ "bind: EADDRINUSE")
      ∈ start ["zygiskd"] (Except.error "bind: EADDRINUSE") :=
  daemon_failure_exit_code ["zygiskd"] (Except.ok ()) "bind: EADDRINUSE" (by decide)

/-- C10: the CLI dispatch treats any first positional argument other than
exactly `companion`, `version`, or `root` — including an unrecognized word,
not only the absence of arguments — as daemon mode; and `companion` with a
missing or unparsable fd argument only logs an error, running no mode. -/
theorem cli_dispatch (args : List String) (res : Except String Unit) :
    (daemonModeArgs args = true → Action.daemonRun ∈ start args res) ∧
    (∀ w, args.get? 1 = some w → w ≠ "companion" → w ≠ "version" → w ≠ "root" →
       daemonModeArgs args = true) ∧
    (args.get? 1 = none → daemonModeArgs args = true) ∧
    (args.get? 1 = some "companion" → args.get? 2 = none →
       start args res
         = [Action.logError "Companion: Missing file descriptor argument."]) ∧
    (∀ fdStr, args.get? 1 = some "companion" → args.get? 2 = some fdStr →
       parse_i32 fdStr = none →
       start args res
         = [Action.logError "Companion: Invalid file descriptor provided."]) := by
  refine ⟨?_, ?_, ?_, ?_, ?_⟩
  · intro hmode
    simp only [daemonModeArgs, Bool.not_eq_true', Bool.or_eq_false_iff,
      decide_eq_false_iff_not] at hmode
    obtain ⟨⟨h1, h2⟩, h3⟩ := hmode
    simp only [List.get?_eq_getElem?] at h1 h2 h3
    cases res <;> simp [start, h1, h2, h3]
  · intro w hw hw1 hw2 hw3
    simp only [List.get?_eq_getElem?] at hw
    simp [daemonModeArgs, hw, hw1, hw2, hw3]
  · intro hw
    simp only [List.get?_eq_getElem?] at hw
    simp [daemonModeArgs, hw]
  · intro h1 h2
    simp only [List.get?_eq_getElem?] at h1 h2
    simp [start, h1, h2]
  · intro fdStr h1 h2 h3
    simp only [List.get?_eq_getElem?] at h1 h2
    simp [start, h1, h2, h3]

/-- C10 witness. -/
theorem cli_dispatch_witness :
    Action.daemonRun ∈ start ["zygiskd", "widget"] (Except.ok ()) ∧
    start ["zygiskd", "companion"] (Except.ok ())
      = [Action.logError "Companion: Missing file descriptor argument."] ∧
    start ["zygiskd", "companion", "7abc"] (Except.ok ())
      = [Action.logError "Companion: Invalid file descriptor provided."] :=
  ⟨(cli_dispatch ["zygiskd", "widget"] (Except.ok ())).1 (by decide),
   (cli_dispatch ["zygiskd", "companion"] (Except.ok ())).2.2.2.1 rfl rfl,
   (cli_dispatch ["zygiskd", "companion", "7abc"] (Except.ok ())).2.2.2.2 "7abc"
     rfl rfl (by decide)⟩

/-- C2 counterexample: when `connect` fails, `unix_datagram_sendto` returns
early through `?` and never restores the socket-creation context to
`u:r:zygote:s0`; the context stays at the attr that was set first. -/
theorem sendto_restore_counterexample :
    ((unix_datagram_sendto
        { currentAttr := Except.ok "u:r:magiskd:s0",
          setCtxOk := fun _ => true, addrOk := true, socketOk := true,
          connectOk := false, sendtoOk := true }
        { sockcreate := "u:r:zygote:s0" }).2.1).sockcreate
      = "u:r:magiskd:s0" := by decide

/-- C2 (amended): the socket-creation context is set to the current attr
before anything else, and it is restored to `u:r:zygote:s0` on every call
that returns success; when `connect` or `sendto` fails the call returns
early and the restore is skipped. -/
theorem sendto_context_protocol (env : SendtoEnv) (st : SELinuxState) (attr : String)
    (hattr : env.currentAttr = Except.ok attr)
    (hok : (unix_datagram_sendto env st).1 = Except.ok ()) :
    (unix_datagram_sendto env st).2.2 = [attr, "u:r:zygote:s0"] ∧
    (unix_datagram_sendto env st).2.1.sockcreate = "u:r:zygote:s0" := by
  unfold unix_datagram_sendto set_socket_create_context at hok ⊢
  rw [hattr] at hok ⊢
  by_cases h1 : env.setCtxOk attr <;> simp only [h1, if_true, if_false] at hok ⊢
  · by_cases h2 : env.addrOk <;> simp only [h2] at hok ⊢ <;>
      [skip; simp at hok]
    by_cases h3 : env.socketOk <;> simp only [h3] at hok ⊢ <;>
      [skip; simp at hok]
    by_cases h4 : env.connectOk <;> simp only [h4] at hok ⊢ <;>
      [skip; simp at hok]
    by_cases h5 : env.sendtoOk <;> simp only [h5] at hok ⊢ <;>
      [skip; simp at hok]
    by_cases h6 : env.setCtxOk "u:r:zygote:s0" <;>
      simp only [h6, if_true, if_false] at hok ⊢
    · exact ⟨rfl, rfl⟩
    · simp at hok
  · simp at hok

/-- C2 witness. -/
theorem sendto_context_protocol_witness :
    (unix_datagram_sendto
        { currentAttr := Except.ok "u:r:su:s0", setCtxOk := fun _ => true,
          addrOk := true, socketOk := true, connectOk := true, sendtoOk := true }
        { sockcreate := "u:r:su:s0" }).2.2 = ["u:r:su:s0", "u:r:zygote:s0"] ∧
    ((unix_datagram_sendto
        { currentAttr := Except.ok "u:r:su:s0", setCtxOk := fun _ => true,
          addrOk := true, socketOk := true, connectOk := true, sendtoOk := true }
        { sockcreate := "u:r:su:s0" }).2.1).sockcreate = "u:r:zygote:s0" :=
  sendto_context_protocol _ _ "u:r:su:s0" rfl rfl

/-- C7: a successful `switch_mount_namespace` call leaves the calling
thread's working directory as it was before the call, even though the
`setns` step clears it. -/
theorem switch_preserves_cwd (env : SwitchEnv) (st : ThreadFsState) (pid : Int)
    (hok : (switch_mount_namespace env st pid).1 = Except.ok ()) :
    ((switch_mount_namespace env st pid).2).cwd = st.cwd := by
  unfold switch_mount_namespace at hok ⊢
  by_cases h1 : env.currentDirOk <;> simp only [h1] at hok ⊢ <;>
    [skip; simp at hok]
  by_cases h2 : env.openNsOk <;> simp only [h2] at hok ⊢ <;>
    [skip; simp at hok]
  by_cases h3 : env.setnsOk <;> simp only [h3] at hok ⊢ <;>
    [skip; simp at hok]
  by_cases h4 : env.setCwdOk <;> simp only [h4, if_true, if_false] at hok ⊢
  · rfl
  · simp at hok

/-- C7 witness. -/
theorem switch_preserves_cwd_witness :
    ((switch_mount_namespace
        { currentDirOk := true, openNsOk := true, setnsOk := true,
          cwdAfterSetns := "/", setCwdOk := true }
        { cwd := "/data" } 1).2).cwd = "/data" :=
  switch_preserves_cwd _ _ 1 rfl

/-- C3 counterexample: on a successful fresh capture the parent's trace is
read, open, kill, reap, store — the fd is stored in the cache slot only
AFTER the child is killed and reaped, not before as claimed. -/
theorem save_ns_order_counterexample :
    (save_mount_namespace
        { pipeOk := true, forkResult := some 1234, readOk := true,
          openResult := some 7 }
        { cleanFd := none, rootFd := none } 1 MountNamespace.Root).2.2
      = [NsEvent.createPipe, NsEvent.forkCall, NsEvent.readPipe,
         NsEvent.openNsFile, NsEvent.killChild, NsEvent.reapChild,
         NsEvent.storeFd 7] ∧
    ¬ ((save_mount_namespace
        { pipeOk := true, forkResult := some 1234, readOk := true,
          openResult := some 7 }
        { cleanFd := none, rootFd := none } 1 MountNamespace.Root).2.2.indexOf
          (NsEvent.storeFd 7)
        < (save_mount_namespace
        { pipeOk := true, forkResult := some 1234, readOk := true,
          openResult := some 7 }
        { cleanFd := none, rootFd := none } 1 MountNamespace.Root).2.2.indexOf
          NsEvent.killChild) := by
  constructor
  · rfl
  · decide

/-- C3 (amended): in the parent branch of a successful fresh capture the
steps occur in the order: read the readiness byte, open
`/proc/<child_pid>/ns/mnt`, deliver `SIGKILL` and reap the child, and only
then store the fd in the cache slot; in particular the namespace file is
opened before the child is killed. -/
theorem save_ns_parent_order (env : SaveEnv) (st : NsCache) (pid : Int)
    (k : MountNamespace) (fd : Nat)
    (hempty : getNamespaceSlot st k = none)
    (hok : (save_mount_namespace env st pid k).1 = Except.ok fd) :
    (save_mount_namespace env st pid k).2.2
      = [NsEvent.createPipe, NsEvent.forkCall, NsEvent.readPipe,
         NsEvent.openNsFile, NsEvent.killChild, NsEvent.reapChild,
         NsEvent.storeFd fd] ∧
    (∃ pre mid post, (save_mount_namespace env st pid k).2.2
        = pre ++ NsEvent.openNsFile :: (mid ++ NsEvent.killChild :: post)) := by
  by_cases h1 : env.pipeOk <;>
    rcases h2 : env.forkResult with _ | childPid <;>
    by_cases h3 : env.readOk <;>
    rcases h4 : env.openResult with _ | fd2 <;>
    simp [save_mount_namespace, hempty, h1, h2, h3, h4] at hok
  subst hok
  refine ⟨?_, [NsEvent.createPipe, NsEvent.forkCall, NsEvent.readPipe], [],
    [NsEvent.reapChild, NsEvent.storeFd fd2], ?_⟩ <;>
    simp [save_mount_namespace, hempty, h1, h2, h3, h4]

/-- C3 witness. -/
theorem save_ns_parent_order_witness :
    (save_mount_namespace
        { pipeOk := true, forkResult := some 99, readOk := true,
          openResult := some 11 }
        { cleanFd := none, rootFd := none } 1 MountNamespace.Clean).2.2
      = [NsEvent.createPipe, NsEvent.forkCall, NsEvent.readPipe,
         NsEvent.openNsFile, NsEvent.killChild, NsEvent.reapChild,
         NsEvent.storeFd 11] ∧
    (∃ pre mid post, (save_mount_namespace
        { pipeOk := true, forkResult := some 99, readOk := true,
          openResult := some 11 }
        { cleanFd := none, rootFd := none } 1 MountNamespace.Clean).2.2
          = pre ++ NsEvent.openNsFile :: (mid ++ NsEvent.killChild :: post)) :=
  save_ns_parent_order _ _ 1 MountNamespace.Clean 11 rfl rfl

/-- C4: each namespace cache slot is write-once — once it holds an fd,
every later `save_mount_namespace` for that kind returns the same raw fd
with no new fork-and-pin (empty event trace, cache unchanged) — and every
failing call leaves the cache exactly as it was, so an empty slot stays
empty and may be retried. -/
theorem save_ns_write_once (env : SaveEnv) (st : NsCache) (pid : Int)
    (k : MountNamespace) :
    (∀ fd, getNamespaceSlot st k = some fd →
       save_mount_namespace env st pid k = (Except.ok fd, st, [])) ∧
    (∀ e, (save_mount_namespace env st pid k).1 = Except.error e →
       (save_mount_namespace env st pid k).2.1 = st) := by
  constructor
  · intro fd hfd
    unfold save_mount_namespace
    rw [hfd]
  · intro e herr
    rcases hslot : getNamespaceSlot st k with _ | fd
    · by_cases h1 : env.pipeOk <;>
        rcases h2 : env.forkResult with _ | childPid <;>
        by_cases h3 : env.readOk <;>
        rcases h4 : env.openResult with _ | fd2 <;>
        simp [save_mount_namespace, hslot, h1, h2, h3, h4] at herr ⊢
    · simp [save_mount_namespace, hslot] at herr

/-- C4 witness. -/
theorem save_ns_write_once_witness :
    save_mount_namespace
        { pipeOk := true, forkResult := some 42, readOk := true,
          openResult := some 9 }
        { cleanFd := none, rootFd := some 5 } 1 MountNamespace.Root
      = (Except.ok 5, { cleanFd := none, rootFd := some 5 }, []) :=
  (save_ns_write_once _ _ 1 MountNamespace.Root).1 5 rfl

/-- Helper: a captured KSU loop-device source implies the active root
implementation is KernelSU. -/
theorem ksu_module_source_impl {impl : RootImpl} {mounts : List MountInfo} {l : String}
    (h : ksu_module_source impl mounts = some l) : impl = RootImpl.kernelsu := by
  by_contra hne
  rw [ksu_module_source, if_neg hne] at h
  exact Option.noConfusion h

/-- C5: a mount entry enumerated by `clean_mount_namespace` is selected as
an unmount target iff its root begins with `/adb/modules`, or its mount
point begins with `/data/adb/modules`, or its source equals the active
root-implementation marker, or the root implementation is KernelSU and its
source equals the loop-device source captured beforehand as backing
`/data/adb/modules` (the spec-side disjunction uses the independently
written `spec_root_marker`). -/
theorem unmount_target_iff (impl : RootImpl) (mounts : List MountInfo)
    (info : MountInfo) :
    info ∈ unmount_targets impl mounts ↔
      info ∈ mounts ∧
      (info.root.startsWith "/adb/modules" = true ∨
       info.mount_point.startsWith "/data/adb/modules" = true ∨
       (∃ marker, spec_root_marker impl = some marker ∧
          info.mount_source = some marker) ∨
       (impl = RootImpl.kernelsu ∧
        ∃ loopSrc, ksu_module_source impl mounts = some loopSrc ∧
          info.mount_source = some loopSrc)) := by
  rw [unmount_targets, List.mem_filter]
  refine and_congr_right (fun _ => ?_)
  rw [should_unmount]
  simp only [Bool.or_eq_true, Bool.and_eq_true, Option.isSome_iff_exists, beq_iff_eq]
  constructor
  · rintro (((h | h) | ⟨⟨x, hx⟩, hsrc⟩) | ⟨⟨x, hx⟩, hsrc⟩)
    · exact Or.inl h
    · exact Or.inr (Or.inl h)
    · refine Or.inr (Or.inr (Or.inl ⟨x, ?_, ?_⟩))
      · cases impl <;> simp_all [root_source, spec_root_marker]
      · rw [hsrc, hx]
    · refine Or.inr (Or.inr (Or.inr ⟨ksu_module_source_impl hx, x, hx, ?_⟩))
      rw [hsrc, hx]
  · rintro (h | h | ⟨marker, hm, hsrc⟩ | ⟨himpl, loopSrc, hl, hsrc⟩)
    · exact Or.inl (Or.inl (Or.inl h))
    · exact Or.inl (Or.inl (Or.inr h))
    · refine Or.inl (Or.inr ⟨⟨marker, ?_⟩, ?_⟩)
      · cases impl <;> simp_all [root_source, spec_root_marker]
      · cases impl <;> simp_all [root_source, spec_root_marker]
    · exact Or.inr ⟨⟨loopSrc, hl⟩, by rw [hsrc, hl]⟩

/-- Helper: the sorted target list is pairwise descending in `mnt_id`. -/
theorem sorted_targets_pairwise (impl : RootImpl) (mounts : List MountInfo) :
    List.Pairwise (fun a b => b.mnt_id ≤ a.mnt_id) (sorted_targets impl mounts) := by
  have h := @List.sorted_mergeSort MountInfo
    (fun a b => decide (b.mnt_id ≤ a.mnt_id))
    (fun a b c hab hbc => by
      simp only [decide_eq_true_eq] at hab hbc ⊢
      omega)
    (fun a b => by
      simp only [Bool.or_eq_true, decide_eq_true_eq]
      omega)
    (unmount_targets impl mounts)
  rw [sorted_targets]
  exact h.imp (fun hab => by simpa using hab)

/-- C6: `clean_mount_namespace` attempts its unmount targets in descending
`mnt_id` order, every target (whose path survives `CString::new`) is
attempted no matter whether other detaches fail, and the function returns
`Ok(())` regardless of individual unmount failures. -/
theorem clean_detach_order (impl : RootImpl) (mounts : List MountInfo)
    (umountOk : String → Bool) :
    (clean_mount_namespace true impl mounts umountOk).1 = Except.ok () ∧
    List.Pairwise (fun a b => b.mnt_id ≤ a.mnt_id)
      ((clean_mount_namespace true impl mounts umountOk).2) ∧
    (∀ t ∈ unmount_targets impl mounts,
       t.mount_point.data.contains (Char.ofNat 0) = false →
       { path := t.mount_point, mnt_id := t.mnt_id,
         success := umountOk t.mount_point }
         ∈ (clean_mount_namespace true impl mounts umountOk).2) := by
  have hev : (clean_mount_namespace true impl mounts umountOk).2
      = (sorted_targets impl mounts).filterMap (fun target =>
          if target.mount_point.data.contains (Char.ofNat 0) then none
          else
            some { path := target.mount_point, mnt_id := target.mnt_id,
                   success := umountOk target.mount_point }) := rfl
  refine ⟨rfl, ?_, ?_⟩
  · rw [hev, List.pairwise_filterMap]
    refine (sorted_targets_pairwise impl mounts).imp ?_
    intro a a' hr b hb b' hb'
    by_cases hn : Char.ofNat 0 ∈ a.mount_point.data <;> simp [hn] at hb
    by_cases hn' : Char.ofNat 0 ∈ a'.mount_point.data <;> simp [hn'] at hb'
    subst hb
    subst hb'
    exact hr
  · intro t ht hnul
    rw [hev]
    have hmem : t ∈ sorted_targets impl mounts := by
      rw [sorted_targets, List.mem_mergeSort]
      exact ht
    have hmemnul : Char.ofNat 0 ∉ t.mount_point.data := by simpa using hnul
    refine List.mem_filterMap.mpr ⟨t, hmem, ?_⟩
    simp [hmemnul]

/-- C6 witness. -/
theorem clean_detach_order_witness :
    { path := "/magisk_mount", mnt_id := (3 : Int), success := false }
      ∈ (clean_mount_namespace true RootImpl.magisk
          [{ mnt_id := 3, root := "/x", mount_point := "/magisk_mount",
             mount_source := some "magisk" }]
          (fun _ => false)).2 :=
  (clean_detach_order RootImpl.magisk
      [{ mnt_id := 3, root := "/x", mount_point := "/magisk_mount",
         mount_source := some "magisk" }]
      (fun _ => false)).2.2
    { mnt_id := 3, root := "/x", mount_point := "/magisk_mount",
      mount_source := some "magisk" }
    (by
      simp [unmount_targets, should_unmount]
      left
      right
      decide)
    (by decide)

/-- C8: `is_socket_alive` reports the socket dead iff `poll` itself failed
(the socket-closed condition) or the reported `revents` contains any of
`POLLERR`, `POLLHUP`, `POLLNVAL`; under the `poll` contract the reported
bits are among the requested `POLLIN` plus those three.  An idle socket
(`revents = 0`) and a readable one (`revents = POLLIN`) are alive. -/
theorem is_socket_alive_iff (pollRet : Int) (revents : Nat)
    (hrep : revents &&& (POLLIN ||| POLLERR ||| POLLHUP ||| POLLNVAL) = revents) :
    (is_socket_alive pollRet revents = false ↔
      (pollRet < 0 ∨ revents &&& POLLERR ≠ 0 ∨ revents &&& POLLHUP ≠ 0 ∨
       revents &&& POLLNVAL ≠ 0)) ∧
    (0 ≤ pollRet → revents = 0 → is_socket_alive pollRet revents = true) ∧
    (0 ≤ pollRet → revents = POLLIN → is_socket_alive pollRet revents = true) := by
  have hb : revents ≤ 57 := by
    calc revents = revents &&& 57 := by
          simpa [POLLIN, POLLERR, POLLHUP, POLLNVAL] using hrep.symm
    _ ≤ 57 := Nat.and_le_right
  rcases lt_or_le pollRet 0 with hp | hp
  · refine ⟨?_, ?_, ?_⟩
    · simp [is_socket_alive, hp]
    · intro h
      omega
    · intro h
      omega
  · have hp2 : ¬ pollRet < 0 := not_lt.mpr hp
    simp only [is_socket_alive, if_neg hp2]
    refine ⟨?_, ?_, ?_⟩
    · rw [iff_iff_implies_and_implies]
      constructor
      · intro h
        refine Or.inr ?_
        simp only [POLLIN, POLLERR, POLLHUP, POLLNVAL] at hrep h ⊢
        interval_cases revents <;> revert h hrep <;> decide
      · intro h
        rcases h with h | h | h | h
        · omega
        all_goals
          simp only [POLLIN, POLLERR, POLLHUP, POLLNVAL] at hrep h ⊢
          interval_cases revents <;> revert h hrep <;> decide
    · intro _ h
      subst h
      decide
    · intro _ h
      subst h
      decide

/-- C8 witness. -/
theorem is_socket_alive_iff_witness :
    is_socket_alive 0 POLLIN = true ∧
    is_socket_alive 0 (POLLIN ||| POLLHUP) = false :=
  ⟨(is_socket_alive_iff 0 POLLIN (by decide)).2.2 (by decide) rfl,
   (is_socket_alive_iff 0 (POLLIN ||| POLLHUP) (by decide)).1.mpr
     (Or.inr (Or.inr (Or.inl (by decide))))⟩

/-- Helper: `utf8Decode` on the empty byte list. -/
theorem utf8Decode_nil : utf8Decode [] = some [] := by rw [utf8Decode.eq_def]

/-- Helper: one-step unfolding of `utf8Decode`. -/
theorem utf8Decode_cons (b : Nat) (rest : List Nat) :
    utf8Decode (b :: rest) =
      match decodeStep b rest with
      | none => none
      | some p => (utf8Decode p.2).map (fun cs => Char.ofNat p.1 :: cs) := by
  rw [utf8Decode.eq_def]
  split
  · rename_i h
    exact absurd h (by simp)
  · rename_i b2 rest2 h
    injection h with hb hrest
    subst hb
    subst hrest
    split <;> rename_i hstep2 <;> rw [hstep2]

/-- Helper: decoding starts on an encoded character by consuming exactly
its bytes and recovering its scalar value. -/
theorem decodeStep_encodeChar (v : Nat)
    (hv : v < 55296 ∨ (57343 < v ∧ v < 1114112)) (rest : List Nat) :
    utf8EncodeChar v ++ rest
      = (utf8EncodeChar v).headI :: ((utf8EncodeChar v).tail ++ rest) ∧
    decodeStep (utf8EncodeChar v).headI ((utf8EncodeChar v).tail ++ rest)
      = some (v, rest) := by
  by_cases h1 : v < 128
  · refine ⟨by simp [utf8EncodeChar, h1], ?_⟩
    simp [utf8EncodeChar, h1, decodeStep]
  · by_cases h2 : v < 2048
    · refine ⟨by simp [utf8EncodeChar, h1, h2], ?_⟩
      simp only [utf8EncodeChar, if_neg h1, if_pos h2, List.headI, List.tail,
        List.cons_append, decodeStep]
      rw [if_neg (by omega), if_neg (by omega), if_pos (by omega)]
      have hok : seqOk2 (192 + v / 64) (128 + v % 64) = true := by
        simp [seqOk2, isCont, seqVal2]
        omega
      have hval : seqVal2 (192 + v / 64) (128 + v % 64) = v := by
        simp [seqVal2]
        omega
      simp [hok, hval]
    · by_cases h3 : v < 65536
      · refine ⟨by simp [utf8EncodeChar, h1, h2, h3], ?_⟩
        simp only [utf8EncodeChar, if_neg h1, if_neg h2, if_pos h3, List.headI,
          List.tail, List.cons_append, decodeStep]
        rw [if_neg (by omega), if_neg (by omega), if_neg (by omega),
          if_pos (by omega)]
        have hok : seqOk3 (224 + v / 4096) (128 + v / 64 % 64) (128 + v % 64)
            = true := by
          simp [seqOk3, isCont, seqVal3]
          omega
        have hval : seqVal3 (224 + v / 4096) (128 + v / 64 % 64) (128 + v % 64)
            = v := by
          simp [seqVal3]
          omega
        simp [hok, hval]
      · refine ⟨by simp [utf8EncodeChar, h1, h2, h3], ?_⟩
        simp only [utf8EncodeChar, if_neg h1, if_neg h2, if_neg h3, List.headI,
          List.tail, List.cons_append, decodeStep]
        rw [if_neg (by omega), if_neg (by omega), if_neg (by omega),
          if_neg (by omega), if_pos (by omega)]
        have hok : seqOk4 (240 + v / 262144) (128 + v / 4096 % 64)
            (128 + v / 64 % 64) (128 + v % 64) = true := by
          simp [seqOk4, isCont, seqVal4]
          omega
        have hval : seqVal4 (240 + v / 262144) (128 + v / 4096 % 64)
            (128 + v / 64 % 64) (128 + v % 64) = v := by
          simp [seqVal4]
          omega
        simp [hok, hval]

/-- Helper: a `Char`'s scalar value avoids the surrogate range and exceeds
neither `U+10FFFF`. -/
theorem charToNat_valid (c : Char) :
    c.toNat < 55296 ∨ (57343 < c.toNat ∧ c.toNat < 1114112) := by
  have h := c.valid
  unfold UInt32.isValidChar Nat.isValidChar at h
  rcases h with h | ⟨h1, h2⟩
  · left
    have : c.val.toNat < 55296 := by exact_mod_cast h
    simpa [Char.toNat] using this
  · right
    refine ⟨?_, ?_⟩
    · have : 57343 < c.val.toNat := by exact_mod_cast h1
      simpa [Char.toNat] using this
    · have : c.val.toNat < 1114112 := by exact_mod_cast h2
      simpa [Char.toNat] using this

/-- Helper: decoding an encoded character prepended to any byte tail. -/
theorem utf8Decode_encodeChar (c : Char) (rest : List Nat) :
    utf8Decode (utf8EncodeChar c.toNat ++ rest)
      = (utf8Decode rest).map (fun cs => c :: cs) := by
  obtain ⟨hshape, hstep⟩ := decodeStep_encodeChar c.toNat (charToNat_valid c) rest
  rw [hshape, utf8Decode_cons, hstep]
  simp [Char.ofNat_toNat]

/-- Helper: decoding an encoded character list prepended to any byte
tail. -/
theorem utf8Decode_encodeList (cs : List Char) (rest : List Nat) :
    utf8Decode (utf8EncodeList cs ++ rest)
      = (utf8Decode rest).map (fun tl => cs ++ tl) := by
  induction cs with
  | nil => simp [utf8EncodeList]
  | cons c cs ih =>
    simp only [utf8EncodeList, List.append_assoc]
    rw [utf8Decode_encodeChar, ih]
    cases utf8Decode rest <;> simp

/-- Helper: the 8-byte little-endian round trip below `2 ^ 64`. -/
theorem bytesToUsize_usizeToBytes (n : Nat) (h : n < 2 ^ 64) :
    bytesToUsize (usizeToBytes n) = n := by
  simp only [usizeToBytes, bytesToUsize, List.foldr]
  omega

/-- Helper: successful framing round trip. -/
theorem read_write_string (s : String) (rest : List Nat)
    (h : (utf8EncodeList s.data).length < 2 ^ 64) :
    read_string (write_string s ++ rest) = some (s, rest) := by
  simp only [write_string, List.append_assoc, read_string, read_usize]
  rw [if_neg (by simp [usizeToBytes])]
  rw [List.take_append_of_le_length (by simp [usizeToBytes])]
  rw [List.drop_append_of_le_length (by simp [usizeToBytes])]
  have h8 : (usizeToBytes (utf8EncodeList s.data).length).take 8
      = usizeToBytes (utf8EncodeList s.data).length := by
    apply List.take_of_length_le
    simp [usizeToBytes]
  have hd : (usizeToBytes (utf8EncodeList s.data).length).drop 8 = [] := by
    apply List.drop_eq_nil_of_le
    simp [usizeToBytes]
  rw [h8, hd, bytesToUsize_usizeToBytes _ h]
  simp only [List.nil_append]
  rw [if_neg (by simp)]
  rw [List.take_append_of_le_length (by simp), List.take_of_length_le (by simp)]
  rw [List.drop_append_of_le_length (by simp), List.drop_eq_nil_of_le (by simp)]
  simp only [List.nil_append]
  have hdec := utf8Decode_encodeList s.data []
  rw [show utf8EncodeList s.data ++ [] = utf8EncodeList s.data by simp] at hdec
  rw [hdec]
  simp [utf8Decode_nil]

/-- C9: string framing round-trips — `write_string` emits exactly the
native-width native-endian byte length followed by the UTF-8 bytes with no
terminator, `read_string` recovers the string and leaves the tail intact,
and `read_string` fails on a short length read, on a truncated payload, and
on a payload that is not valid UTF-8. -/
theorem string_framing_roundtrip :
    (∀ s : String, write_string s
        = usizeToBytes (utf8EncodeList s.data).length ++ utf8EncodeList s.data) ∧
    (∀ (s : String) (rest : List Nat), (utf8EncodeList s.data).length < 2 ^ 64 →
       read_string (write_string s ++ rest) = some (s, rest)) ∧
    (∀ bs : List Nat, bs.length < 8 → read_string bs = none) ∧
    (∀ (len : Nat) (payload : List Nat), len < 2 ^ 64 → payload.length < len →
       read_string (usizeToBytes len ++ payload) = none) ∧
    (∀ (len : Nat) (payload : List Nat), len < 2 ^ 64 → len ≤ payload.length →
       utf8Decode (payload.take len) = none →
       read_string (usizeToBytes len ++ payload) = none) := by
  have husize : ∀ (len : Nat) (payload : List Nat), len < 2 ^ 64 →
      read_usize (usizeToBytes len ++ payload) = some (len, payload) := by
    intro len payload hlen
    rw [read_usize, if_neg (by simp [usizeToBytes])]
    rw [List.take_append_of_le_length (by simp [usizeToBytes])]
    rw [List.drop_append_of_le_length (by simp [usizeToBytes])]
    rw [List.take_of_length_le (by simp [usizeToBytes])]
    rw [List.drop_eq_nil_of_le (by simp [usizeToBytes])]
    rw [bytesToUsize_usizeToBytes _ hlen]
    simp
  refine ⟨fun s => rfl, read_write_string, ?_, ?_, ?_⟩
  · intro bs hshort
    rw [read_string, read_usize, if_pos hshort]
  · intro len payload hlen htrunc
    rw [read_string, husize len payload hlen]
    simp [htrunc]
  · intro len payload hlen hlong hbad
    rw [read_string, husize len payload hlen]
    have hnl : ¬ payload.length < len := by omega
    simp [hnl, hbad]

/-- C9 witness. -/
theorem string_framing_roundtrip_witness :
    read_string (write_string "hi" ++ [7]) = some ("hi", [7]) ∧
    read_string [1, 2, 3] = none :=
  ⟨string_framing_roundtrip.2.1 "hi" [7] (by decide),
   string_framing_roundtrip.2.2.1 [1, 2, 3] (by decide)⟩

end NeoZygisk
